import Mathlib

/-!
# gmtr: the ICMP probe of `icmp/icmp.go`

A shallow embedding of `SendICMP`, `SendDiscoverICMP` and `listenForSpecific`
together with the parts of `golang.org/x/net/icmp`, `golang.org/x/net/ipv4`,
`encoding/binary` and `bytes` they call.

* A byte slice is a `List Nat` (every element below 256 on the wire).
* A Go `int` is an `Int`; the conversions `uint16(..)`, `uint32(..)` and
  `byte(..)` are written out as remainders.
* The socket is an environment: what `ListenPacket`, `SetTTL`, `SetDeadline`,
  `WriteTo` and each `ReadFrom` answer, and how long each of them takes. The
  clock read by `time.Now()` is the entry time plus the time taken by the
  calls made since.
* A Go panic is an outcome of its own; so is a loop that is still blocked in
  `ReadFrom` when the environment has no further answer.
* Of the library, the validation of RFC 4884 extensions and the parsing of
  bodies that are neither echo nor time exceeded are parameters (`IcmpLib`):
  the statements hold for every value of them.
-/

namespace Gmtr

/-! ## Go scalars and byte order -/

/-- Go conversion `uint16(x)` of an `int`. -/
def uint16 (x : Int) : Nat := (x % 65536).toNat

/-- Go conversion `uint32(x)` of an `int`. -/
def uint32 (x : Int) : Nat := (x % 4294967296).toNat

/-- Go conversion `byte(x)` of an unsigned value. -/
def byte (x : Nat) : Nat := x % 256

/-- Bytes written by `binary.LittleEndian.PutUint32`. -/
def putUint32LE (v : Nat) : List Nat :=
  [byte v, byte (v / 256), byte (v / 65536), byte (v / 16777216)]

/-- Bytes written by `binary.BigEndian.PutUint16`. -/
def putUint16BE (v : Nat) : List Nat :=
  [byte (v / 256), byte v]

/-- Value read by `binary.BigEndian.Uint16` from two bytes. -/
def uint16BE (hi lo : Nat) : Nat := hi * 256 + lo

/-- First index of `sep` in `s`, or `-1`: Go `bytes.Index`. -/
def bytesIndex : List Nat → List Nat → Int
  | [], sep => if sep = [] then 0 else -1
  | a :: s, sep =>
    if sep.isPrefixOf (a :: s) then 0
    else
      let r := bytesIndex s sep
      if r < 0 then -1 else r + 1

/-! ## golang.org/x/net/icmp -/

/-- The body of a parsed message: `*icmp.Echo`, `*icmp.TimeExceeded`, or any
other implementation of `icmp.MessageBody`. -/
inductive MessageBody where
  | echo (ID Seq : Nat) (Data : List Nat)
  | timeExceeded (Data : List Nat)
  | other
  deriving DecidableEq

/-- An `icmp.Message`; `Typ` is its field `Type`. -/
structure Message where
  Typ : Nat
  Code : Nat
  Checksum : Nat
  Body : MessageBody
  deriving DecidableEq

/-- The parts of the library that are taken as given.
`extensions b l` is what `parseExtensions` answers once its length guard has
passed (validation of the RFC 4884 extension header and of the objects after
it): the adjusted length of the original-datagram field, or `none` for an
error. `parsesOther t b` says whether a body `b` of a type other than echo,
echo reply and time exceeded parses without error. -/
structure IcmpLib where
  extensions : List Nat → Nat → Option Nat
  parsesOther : Nat → List Nat → Bool

/-- Internet checksum of `x/net/icmp`: 16-bit words, low byte first. -/
def checksumWords : List Nat → Nat
  | [] => 0
  | [a] => a
  | a :: b :: rest => (b * 256 + a) + checksumWords rest

/-- The `checksum` function of the library. -/
def checksum (b : List Nat) : Nat :=
  let s := checksumWords b % 4294967296
  let s := (s / 65536 + s % 65536) % 4294967296
  let s := (s + s / 65536) % 4294967296
  65535 - s % 65536

/-- The `Marshal` method of `*icmp.Echo`. -/
def Echo.Marshal (ID Seq : Int) (Data : List Nat) : List Nat :=
  putUint16BE (uint16 ID) ++ putUint16BE (uint16 Seq) ++ Data

/-- The `Marshal` method of a message body, as far as the program uses it:
line 117 calls it on the body of a message of type 0, which is an echo body
(`ParseMessage_body`). -/
def MessageBody.Marshal : MessageBody → Option (List Nat)
  | .echo ID Seq Data => some (Echo.Marshal ID Seq Data)
  | _ => none

/-- The `Marshal` method of an ICMPv4 message whose body is an `*icmp.Echo`:
header with a zero checksum, body, then the checksum put in place. -/
def Message.MarshalEcho (typ code : Nat) (ID Seq : Int) (Data : List Nat) : List Nat :=
  let b := [byte typ, byte code, 0, 0] ++ Echo.Marshal ID Seq Data
  let s := checksum b
  [byte typ, byte code, byte s, byte (s / 256)] ++ Echo.Marshal ID Seq Data

/-- The library function `parseEcho`. -/
def parseEcho (b : List Nat) : Option MessageBody :=
  match b with
  | i1 :: i2 :: s1 :: s2 :: data => some (.echo (uint16BE i1 i2) (uint16BE s1 s2) data)
  | _ => none

/-- The library function `parseExtensions` for a time-exceeded message: the
length guard, then the part taken as given. -/
def parseExtensions (L : IcmpLib) (b : List Nat) (l : Nat) : Option Nat :=
  let l := if 128 > l ∨ l + 8 > b.length then 128 else l
  if l + 8 > b.length then none else L.extensions b l

/-- The original-datagram field computed by `parseMultipartMessageBody` for
ICMPv4: `b` is the message after its 4-byte header. -/
def parseMultipartMessageBody (L : IcmpLib) (b : List Nat) : List Nat :=
  let l := 4 * b.getD 1 0
  if b.length = 4 then []
  else
    let l := match parseExtensions L (b.drop 4) l with
      | some l => l
      | none => b.length - 4
    (b.drop 4).take l ++ List.replicate (l - (b.drop 4).length) 0

/-- The library function `parseTimeExceeded`. -/
def parseTimeExceeded (L : IcmpLib) (b : List Nat) : Option MessageBody :=
  if b.length < 4 then none
  else some (.timeExceeded (parseMultipartMessageBody L b))

/-- The call `icmp.ParseMessage(1, b)`. -/
def ParseMessage (L : IcmpLib) (b : List Nat) : Option Message :=
  match b with
  | t :: c :: k1 :: k2 :: rest =>
    let body :=
      if t = 0 ∨ t = 8 then parseEcho rest
      else if t = 11 then parseTimeExceeded L rest
      else if L.parsesOther t rest then some .other else none
    body.map (fun bd => ⟨t, c, uint16BE k1 k2, bd⟩)
  | _ => none

/-- The `String` method of `ipv4.ICMPType`. -/
def ICMPTypeString (t : Nat) : String :=
  match t with
  | 0 => "echo reply"
  | 3 => "destination unreachable"
  | 5 => "redirect"
  | 8 => "echo"
  | 9 => "router advertisement"
  | 10 => "router solicitation"
  | 11 => "time exceeded"
  | 12 => "parameter problem"
  | 13 => "timestamp"
  | 14 => "timestamp reply"
  | 40 => "photuris"
  | 42 => "extended echo request"
  | 43 => "extended echo reply"
  | _ => "<nil>"

/-! ## The socket as an environment -/

/-- A Go `error` value, by its concrete type: `*net.OpError` or anything else. -/
inductive GoError where
  | opError (msg : String)
  | otherError (msg : String)
  deriving DecidableEq

/-- What one call of `conn.ReadFrom(b)` answers: the byte count, the sender
(`none` for a nil `net.Addr`, else its `String()`), the error, the buffer, and
the time the call took. -/
structure ReadResult where
  n : Nat
  peer : Option String
  err : Option GoError
  b : List Nat
  wait : Nat
  deriving DecidableEq

/-- The `continue` statements of the receive loop, and the end of its body. -/
inductive Site where
  | emptyRead
  | peerFilter
  | parseError
  | bodyMismatch
  | endOfBody
  deriving DecidableEq

/-- One pass through the body of the receive loop. -/
inductive Step where
  | ret (peer : String) (body : List Nat) (err : Option GoError)
  | next (site : Site)
  | panic
  deriving DecidableEq

/-- The result of `listenForSpecific`: its three return values, a panic, or
still blocked in `ReadFrom` when the environment has no further answer. -/
inductive Outcome where
  | ret (peer : String) (body : List Nat) (err : Option GoError)
  | panic
  | pending
  deriving DecidableEq

/-! ## icmp/icmp.go -/

/-- ICMPReturn contains the info for a returned ICMP. -/
structure ICMPReturn where
  Success : Bool
  Addr : String
  Elapsed : Int
  deriving DecidableEq

/-- Lines 98-114: the time-exceeded branch. `none` when the branch falls
through to the echo-reply test. The inner `x` of line 103 is `x2`; it is nil
when `ParseMessage` fails, and line 104 then dereferences it. `sent[:4]` is
out of range for a `sent` of fewer than 4 bytes. -/
def timeExceededBranch (L : IcmpLib) (peer : Option String) (needSeq : Int)
    (sent : List Nat) (x : Message) : Option Step :=
  if ICMPTypeString x.Typ = "time exceeded" then
    match x.Body with
    | .timeExceeded body =>
      if sent.length < 4 then some .panic
      else
        let index := bytesIndex body (sent.take 4)
        if index > 0 then
          match ParseMessage L (body.drop index.toNat) with
          | none => some .panic
          | some x2 =>
            match x2.Body with
            | .echo _ seq _ =>
              if (seq : Int) = needSeq then
                match peer with
                | some p => some (.ret p [] none)
                | none => some .panic
              else none
            | _ => none
        else none
    | _ => some .panic
  else none

/-- Lines 116-122: the echo-reply branch. -/
def echoReplyBranch (peer : Option String) (neededBody : List Nat) (x : Message) : Step :=
  if ICMPTypeString x.Typ = "echo reply" then
    match x.Body.Marshal with
    | none => .panic
    | some b =>
      if b.length < 4 then .panic
      else if b.drop 4 ≠ neededBody then .next .bodyMismatch
      else
        match peer with
        | some p => .ret p (b.drop 4) none
        | none => .panic
  else .next .endOfBody

/-- Lines 78-122: one iteration of the loop of `listenForSpecific` on the
answer `r` of `conn.ReadFrom`. -/
def listenStep (L : IcmpLib) (neededPeer : String) (neededBody : List Nat) (needSeq : Int)
    (sent : List Nat) (r : ReadResult) : Step :=
  match r.err with
  | some (.opError msg) => .ret "" [] (some (.opError msg))
  | _ =>
    if r.n = 0 then .next .emptyRead
    else if neededPeer ≠ "" ∧ r.peer = none then .panic
    else if neededPeer ≠ "" ∧ r.peer ≠ some neededPeer then .next .peerFilter
    else
      match ParseMessage L (r.b.take r.n) with
      | none => .next .parseError
      | some x =>
        match timeExceededBranch L r.peer needSeq sent x with
        | some s => s
        | none => echoReplyBranch r.peer neededBody x

/-- listenForSpecific listens for a reply from a specific destination with a
specific body: the loop, run on the successive answers of `conn.ReadFrom`
from time `now` on. The second component is the time at which it stops. The
`deadline` argument is not read by the source either. -/
def listenForSpecific (L : IcmpLib) (deadline : Nat) (neededPeer : String)
    (neededBody : List Nat) (needSeq : Int) (sent : List Nat) :
    Nat → List ReadResult → Outcome × Nat
  | now, [] => (.pending, now)
  | now, r :: rest =>
    match listenStep L neededPeer neededBody needSeq sent r with
    | .ret p b e => (.ret p b e, now + r.wait)
    | .panic => (.panic, now + r.wait)
    | .next _ => listenForSpecific L deadline neededPeer neededBody needSeq sent (now + r.wait) rest

/-- What the operating system answers to one probe, and how long each call
takes. -/
structure Env where
  listen : String → Option GoError
  listenCost : Nat
  setTTL : Int → Option GoError
  setTTLCost : Nat
  setDeadline : Option GoError
  setDeadlineCost : Nat
  encodeCost : Nat
  write : String → List Nat → Option GoError
  writeCost : Nat
  reads : List ReadResult

/-- The result of a call of `SendICMP`: its return values, a panic, or still
blocked. -/
inductive Result where
  | returned (hop : ICMPReturn) (err : Option GoError)
  | panicked
  | pending
  deriving DecidableEq

/-- The data of the request: `bs` after `PutUint32`, with `'x'` appended. -/
def CorrelationPayload (seq : Int) : List Nat :=
  putUint32LE (uint32 seq) ++ [120]

/-- Lines 47-54: the marshalled request `wb`. -/
def encodeEchoRequest (pid seq : Int) : List Nat :=
  Message.MarshalEcho 8 0 pid seq (CorrelationPayload seq)

/-- SendICMP sends a ICMP to a given destination which requires a reply from
that specific destination. `t0` is the clock at entry. -/
def SendICMP (L : IcmpLib) (env : Env) (t0 : Nat) (localAddr dst target : String)
    (ttl pid : Int) (timeout : Nat) (seq : Int) : Result :=
  let hop : ICMPReturn := ⟨false, "", 0⟩
  let start := t0
  match env.listen localAddr with
  | some _ => .panicked
  | none =>
    let t1 := t0 + env.listenCost
    match env.setTTL ttl with
    | some e => .returned hop (some e)
    | none =>
      let t2 := t1 + env.setTTLCost
      match env.setDeadline with
      | some e => .returned hop (some e)
      | none =>
        let t3 := t2 + env.setDeadlineCost
        let wb := encodeEchoRequest pid seq
        let t4 := t3 + env.encodeCost
        match env.write dst wb with
        | some e => .returned hop (some e)
        | none =>
          let t5 := t4 + env.writeCost
          match listenForSpecific L (t5 + timeout) target (CorrelationPayload seq) seq wb
              t5 env.reads with
          | (.ret _ _ (some e), _) => .returned hop (some e)
          | (.ret peer _ none, t6) =>
            .returned ⟨true, peer, (t6 : Int) - (start : Int)⟩ none
          | (.panic, _) => .panicked
          | (.pending, _) => .pending

/-- SendDiscoverICMP sends a ICMP to a given destination with a TTL to
discover hops. -/
def SendDiscoverICMP (L : IcmpLib) (env : Env) (t0 : Nat) (localAddr dst : String)
    (ttl pid : Int) (timeout : Nat) (seq : Int) : Result :=
  SendICMP L env t0 localAddr dst "" ttl pid timeout seq

/-- The clock just before `c.WriteTo` is called. -/
def timeBeforeWrite (env : Env) (t0 : Nat) : Nat :=
  t0 + env.listenCost + env.setTTLCost + env.setDeadlineCost + env.encodeCost

/-! ## Concrete inputs -/

/-- An environment in which every call succeeds, opening the listener takes
`listenCost` and every other call but the reads takes no time. -/
def calmEnv (listenCost : Nat) (reads : List ReadResult) : Env :=
  ⟨fun _ => none, listenCost, fun _ => none, 0, none, 0, 0, fun _ _ => none, 0, reads⟩

/-- A library that reports no RFC 4884 extension and accepts every other
body; used where a concrete library is needed. -/
def noExtensions : IcmpLib := ⟨fun _ _ => none, fun _ _ => true⟩

/-- A 20-byte IPv4 header: protocol ICMP, from 10.0.0.1 to 1.2.3.4. -/
def ipHeader : List Nat := [69, 0, 0, 33, 1, 2, 0, 0, 1, 1, 0, 0, 10, 0, 0, 1, 1, 2, 3, 4]

/-- A time-exceeded datagram (type 11, code 0) with `data` as its
original-datagram field. -/
def timeExceededPacket (data : List Nat) : List Nat := [11, 0, 0, 0, 0, 0, 0, 0] ++ data

/-! ## Facts about the library functions and the loop -/

set_option maxRecDepth 100000

theorem ICMPTypeString_timeExceeded (t : Nat) : ICMPTypeString t = "time exceeded" ↔ t = 11 := by
  unfold ICMPTypeString
  split <;> simp_all

theorem ICMPTypeString_echoReply (t : Nat) : ICMPTypeString t = "echo reply" ↔ t = 0 := by
  unfold ICMPTypeString
  split <;> simp_all

theorem bytesIndex_cons (a : Nat) (s sep : List Nat) :
    bytesIndex (a :: s) sep =
      if sep <+: a :: s then 0
      else if bytesIndex s sep < 0 then -1 else bytesIndex s sep + 1 := by
  rw [bytesIndex]
  simp only [List.isPrefixOf_iff_prefix]

theorem bytesIndex_nil (sep : List Nat) :
    bytesIndex [] sep = if sep = [] then 0 else -1 := by
  rw [bytesIndex]

theorem bytesIndex_ge (s sep : List Nat) : -1 ≤ bytesIndex s sep := by
  induction s with
  | nil => rw [bytesIndex_nil]; split <;> simp
  | cons a s ih =>
    rw [bytesIndex_cons]
    split
    · simp
    · split <;> omega

theorem bytesIndex_found (s sep : List Nat) (h : 0 ≤ bytesIndex s sep) :
    sep <+: s.drop (bytesIndex s sep).toNat := by
  induction s with
  | nil =>
    rw [bytesIndex_nil] at h ⊢
    by_cases hs : sep = []
    · simp [hs]
    · simp [hs] at h
  | cons a s ih =>
    rw [bytesIndex_cons] at h ⊢
    by_cases hp : sep <+: a :: s
    · simp [hp]
    · by_cases hneg : bytesIndex s sep < 0
      · simp [hp, hneg] at h
      · simp only [hp, hneg, if_false] at h ⊢
        have e : (bytesIndex s sep + 1).toNat = (bytesIndex s sep).toNat + 1 := by omega
        rw [e]
        simpa using ih (by omega)

theorem bytesIndex_first (s sep : List Nat) (j : Nat) (h : (j : Int) < bytesIndex s sep) :
    ¬ sep <+: s.drop j := by
  induction s generalizing j with
  | nil =>
    rw [bytesIndex_nil] at h
    split at h <;> omega
  | cons a s ih =>
    rw [bytesIndex_cons] at h
    by_cases hp : sep <+: a :: s
    · simp [hp] at h
      omega
    · by_cases hneg : bytesIndex s sep < 0
      · simp only [hp, hneg, if_false, if_true] at h
        omega
      · simp only [hp, hneg, if_false] at h
        cases j with
        | zero => simpa using hp
        | succ j =>
          have : (j : Int) < bytesIndex s sep := by omega
          simpa using ih j this

/-- Characterisation: an occurrence with no earlier occurrence is the index. -/
theorem bytesIndex_eq_of_first (s sep : List Nat) (k : Nat) (hk : sep <+: s.drop k)
    (hlen : k ≤ s.length)
    (hfirst : ∀ j, j < k → ¬ sep <+: s.drop j) : bytesIndex s sep = k := by
  have hge := bytesIndex_ge s sep
  by_contra hne
  rcases lt_or_gt_of_ne hne with hlt | hgt
  · by_cases h0 : 0 ≤ bytesIndex s sep
    · have := bytesIndex_found s sep h0
      exact hfirst (bytesIndex s sep).toNat (by omega) this
    · -- absent: contradiction with occurrence at k
      have hm : bytesIndex s sep = -1 := by omega
      clear hne hlt hge h0 hfirst
      induction s generalizing k with
      | nil =>
        rw [bytesIndex_nil] at hm
        by_cases hs : sep = []
        · simp [hs] at hm
        · simp at hk; exact hs hk
      | cons a s ih =>
        rw [bytesIndex_cons] at hm
        by_cases hp : sep <+: a :: s
        · simp [hp] at hm
        · by_cases hneg : bytesIndex s sep < 0
          · cases k with
            | zero => simp at hk; exact hp hk
            | succ k =>
              have := bytesIndex_ge s sep
              exact ih k (by simpa using hk) (by simpa using hlen) (by omega)
          · simp only [hp, hneg, if_false] at hm
            omega
  · exact bytesIndex_first s sep k hgt hk

theorem uint16_lt (x : Int) : uint16 x < 65536 := by
  unfold uint16; omega

theorem uint16_cast (x : Int) (h0 : 0 ≤ x) (h1 : x < 65536) : (uint16 x : Int) = x := by
  unfold uint16; omega

theorem uint16BE_put (v : Nat) (h : v < 65536) : uint16BE (byte (v / 256)) (byte v) = v := by
  unfold uint16BE byte; omega

/-- The marshalled request, byte by byte. -/
theorem encodeEchoRequest_bytes (pid seq : Int) :
    encodeEchoRequest pid seq =
      8 :: 0 ::
        byte (checksum ([8, 0, 0, 0] ++ Echo.Marshal pid seq (CorrelationPayload seq))) ::
        byte (checksum ([8, 0, 0, 0] ++ Echo.Marshal pid seq (CorrelationPayload seq)) / 256) ::
        byte (uint16 pid / 256) :: byte (uint16 pid) ::
        byte (uint16 seq / 256) :: byte (uint16 seq) :: CorrelationPayload seq := by
  simp [encodeEchoRequest, Message.MarshalEcho, Echo.Marshal, putUint16BE, byte]

theorem encodeEchoRequest_length (pid seq : Int) : (encodeEchoRequest pid seq).length = 13 := by
  rw [encodeEchoRequest_bytes]; simp [CorrelationPayload, putUint32LE]

theorem ParseMessage_echo (L : IcmpLib) (t c k1 k2 i1 i2 s1 s2 : Nat) (data : List Nat)
    (ht : t = 0 ∨ t = 8) :
    ParseMessage L (t :: c :: k1 :: k2 :: i1 :: i2 :: s1 :: s2 :: data) =
      some ⟨t, c, uint16BE k1 k2, .echo (uint16BE i1 i2) (uint16BE s1 s2) data⟩ := by
  simp [ParseMessage, parseEcho, ht]

theorem ParseMessage_encodeEchoRequest (L : IcmpLib) (pid seq : Int) (post : List Nat) :
    ∃ k, ParseMessage L (encodeEchoRequest pid seq ++ post) =
      some ⟨8, 0, k, .echo (uint16 pid) (uint16 seq) (CorrelationPayload seq ++ post)⟩ := by
  rw [encodeEchoRequest_bytes]
  refine ⟨uint16BE
    (byte (checksum ([8, 0, 0, 0] ++ Echo.Marshal pid seq (CorrelationPayload seq))))
    (byte (checksum ([8, 0, 0, 0] ++ Echo.Marshal pid seq (CorrelationPayload seq)) / 256)), ?_⟩
  simp only [List.cons_append]
  rw [ParseMessage_echo L 8 _ _ _ _ _ _ _ _ (Or.inr rfl)]
  rw [uint16BE_put _ (uint16_lt pid), uint16BE_put _ (uint16_lt seq)]

theorem listenForSpecific_cons (L : IcmpLib) (deadline : Nat) (neededPeer : String)
    (neededBody : List Nat) (needSeq : Int) (sent : List Nat) (now : Nat) (r : ReadResult)
    (rest : List ReadResult) :
    listenForSpecific L deadline neededPeer neededBody needSeq sent now (r :: rest) =
      match listenStep L neededPeer neededBody needSeq sent r with
      | .ret p b e => (.ret p b e, now + r.wait)
      | .panic => (.panic, now + r.wait)
      | .next _ =>
        listenForSpecific L deadline neededPeer neededBody needSeq sent (now + r.wait) rest := by
  rw [listenForSpecific]

theorem Echo_Marshal_drop (ID Seq : Int) (Data : List Nat) :
    (Echo.Marshal ID Seq Data).drop 4 = Data ∧ 4 ≤ (Echo.Marshal ID Seq Data).length := by
  simp [Echo.Marshal, putUint16BE]

theorem timeExceededBranch_other (L : IcmpLib) (peer : Option String) (needSeq : Int)
    (sent : List Nat) (x : Message) (h : x.Typ ≠ 11) :
    timeExceededBranch L peer needSeq sent x = none := by
  unfold timeExceededBranch
  rw [if_neg]
  rw [ICMPTypeString_timeExceeded]
  exact h

theorem echoReplyBranch_echo (p : String) (neededBody : List Nat) (c k i s : Nat)
    (body : List Nat) :
    echoReplyBranch (some p) neededBody ⟨0, c, k, .echo i s body⟩ =
      if body = neededBody then .ret p body none else .next .bodyMismatch := by
  unfold echoReplyBranch
  have h4 := Echo_Marshal_drop i s body
  simp only [MessageBody.Marshal]
  rw [if_pos ((ICMPTypeString_echoReply 0).2 rfl)]
  simp only [h4.1]
  rw [if_neg (by omega)]
  by_cases hb : body = neededBody <;> simp [hb]

/-- The step taken on an echo reply that passed the peer filter. -/
theorem listenStep_echoReply (L : IcmpLib) (neededPeer p : String) (neededBody : List Nat)
    (needSeq : Int) (sent : List Nat) (r : ReadResult) (c k1 k2 i1 i2 s1 s2 : Nat)
    (body : List Nat) (herr : r.err = none) (hpeer : r.peer = some p)
    (hfilter : neededPeer = "" ∨ neededPeer = p)
    (hpkt : r.b.take r.n = 0 :: c :: k1 :: k2 :: i1 :: i2 :: s1 :: s2 :: body) :
    listenStep L neededPeer neededBody needSeq sent r =
      if body = neededBody then .ret p body none else .next .bodyMismatch := by
  have hn : r.n ≠ 0 := by
    intro h0
    rw [h0] at hpkt
    simp at hpkt
  unfold listenStep
  simp only [herr, hpeer, hpkt]
  rw [if_neg hn, if_neg (by simp), if_neg (by rcases hfilter with h | h <;> simp [h])]
  rw [ParseMessage_echo L 0 _ _ _ _ _ _ _ _ (Or.inl rfl)]
  simp only []
  rw [timeExceededBranch_other _ _ _ _ _ (by simp)]
  exact echoReplyBranch_echo p neededBody _ _ _ _ body

theorem timeExceededBranch_eq (L : IcmpLib) (peer : Option String) (needSeq : Int)
    (sent : List Nat) (c k : Nat) (data : List Nat) (hlen : 4 ≤ sent.length) :
    timeExceededBranch L peer needSeq sent ⟨11, c, k, .timeExceeded data⟩ =
      if 0 < bytesIndex data (sent.take 4) then
        match ParseMessage L (data.drop (bytesIndex data (sent.take 4)).toNat) with
        | none => some .panic
        | some x2 =>
          match x2.Body with
          | .echo _ seq _ =>
            if (seq : Int) = needSeq then
              match peer with
              | some p => some (.ret p [] none)
              | none => some .panic
            else none
          | _ => none
      else none := by
  unfold timeExceededBranch
  rw [if_pos ((ICMPTypeString_timeExceeded 11).2 rfl)]
  simp only []
  rw [if_neg (by omega)]

theorem timeExceededBranch_not_next (L : IcmpLib) (peer : Option String) (needSeq : Int)
    (sent : List Nat) (x : Message) (s : Step)
    (h : timeExceededBranch L peer needSeq sent x = some s) :
    s = .panic ∨ ∃ p, peer = some p ∧ s = .ret p [] none := by
  unfold timeExceededBranch at h
  split at h
  · split at h
    · split at h
      · left; simpa using h.symm
      · simp only [] at h
        split at h
        · split at h
          · left; simpa using h.symm
          · split at h
            · split at h
              · split at h
                · right; exact ⟨_, rfl, by simpa using h.symm⟩
                · left; simpa using h.symm
              · simp at h
            · simp at h
        · simp at h
    · left; simpa using h.symm
  · simp at h

theorem echoReplyBranch_cases (peer : Option String) (neededBody : List Nat) (x : Message) :
    echoReplyBranch peer neededBody x = .panic ∨
      echoReplyBranch peer neededBody x = .next .bodyMismatch ∨
      echoReplyBranch peer neededBody x = .next .endOfBody ∨
      ∃ p b, peer = some p ∧ echoReplyBranch peer neededBody x = .ret p b none := by
  unfold echoReplyBranch
  split
  · split
    · simp
    · split
      · simp
      · split
        · simp
        · split
          · right; right; right; exact ⟨_, _, rfl, rfl⟩
          · simp
  · simp

/-- What one iteration can do once the read error, the empty read and the
peer filter are behind it. -/
theorem listenStep_passed (L : IcmpLib) (neededPeer p : String) (neededBody : List Nat)
    (needSeq : Int) (sent : List Nat) (r : ReadResult) (hn : r.n ≠ 0) (herr : r.err = none)
    (hpeer : r.peer = some p) (hfilter : neededPeer = "" ∨ neededPeer = p) :
    listenStep L neededPeer neededBody needSeq sent r =
      match ParseMessage L (r.b.take r.n) with
      | none => .next .parseError
      | some x =>
        match timeExceededBranch L (some p) needSeq sent x with
        | some s => s
        | none => echoReplyBranch (some p) neededBody x := by
  unfold listenStep
  simp only [herr, hpeer]
  rw [if_neg hn, if_neg (by simp), if_neg (by rcases hfilter with h | h <;> simp [h])]

theorem listenStep_passed_cases (L : IcmpLib) (neededPeer p : String) (neededBody : List Nat)
    (needSeq : Int) (sent : List Nat) (r : ReadResult) (hn : r.n ≠ 0) (herr : r.err = none)
    (hpeer : r.peer = some p) (hfilter : neededPeer = "" ∨ neededPeer = p) :
    listenStep L neededPeer neededBody needSeq sent r = .panic ∨
      listenStep L neededPeer neededBody needSeq sent r = .next .parseError ∨
      listenStep L neededPeer neededBody needSeq sent r = .next .bodyMismatch ∨
      listenStep L neededPeer neededBody needSeq sent r = .next .endOfBody ∨
      ∃ b, listenStep L neededPeer neededBody needSeq sent r = .ret p b none := by
  rw [listenStep_passed L neededPeer p neededBody needSeq sent r hn herr hpeer hfilter]
  cases hp : ParseMessage L (r.b.take r.n) with
  | none => simp
  | some x =>
    simp only []
    cases ht : timeExceededBranch L (some p) needSeq sent x with
    | some s =>
      simp only []
      rcases timeExceededBranch_not_next L (some p) needSeq sent x s ht with h | ⟨q, hq, h⟩
      · simp [h]
      · simp only [Option.some.injEq] at hq
        subst hq
        right; right; right; right
        exact ⟨[], h⟩
    | none =>
      simp only []
      rcases echoReplyBranch_cases (some p) neededBody x with h | h | h | ⟨q, b, hq, h⟩
      · simp [h]
      · simp [h]
      · simp [h]
      · simp only [Option.some.injEq] at hq
        subst hq
        right; right; right; right
        exact ⟨b, h⟩

theorem listenStep_filtered (L : IcmpLib) (neededPeer p : String) (neededBody : List Nat)
    (needSeq : Int) (sent : List Nat) (r : ReadResult) (hn : r.n ≠ 0) (herr : r.err = none)
    (hpeer : r.peer = some p) (h1 : neededPeer ≠ "") (h2 : p ≠ neededPeer) :
    listenStep L neededPeer neededBody needSeq sent r = .next .peerFilter := by
  unfold listenStep
  simp only [herr, hpeer]
  rw [if_neg hn, if_neg (by simp), if_pos ⟨h1, by simpa using h2⟩]

/-- Reads that are all discarded only move the clock. -/
theorem listenForSpecific_skip (L : IcmpLib) (deadline : Nat) (neededPeer : String)
    (neededBody : List Nat) (needSeq : Int) (sent : List Nat) (skipped rest : List ReadResult)
    (now : Nat)
    (h : ∀ q ∈ skipped, ∃ site, listenStep L neededPeer neededBody needSeq sent q = .next site) :
    listenForSpecific L deadline neededPeer neededBody needSeq sent now (skipped ++ rest) =
      listenForSpecific L deadline neededPeer neededBody needSeq sent
        (now + (skipped.map (fun q => q.wait)).sum) rest := by
  induction skipped generalizing now with
  | nil => simp
  | cons q qs ih =>
    obtain ⟨site, hs⟩ := h q (List.mem_cons_self _ _)
    rw [List.cons_append, listenForSpecific_cons, hs]
    simp only []
    rw [ih (now + q.wait) (fun q' hq' => h q' (List.mem_cons_of_mem _ hq'))]
    simp [Nat.add_assoc]

/-- The probe once the socket is open and configured and the request written. -/
theorem SendICMP_sent (L : IcmpLib) (env : Env) (t0 : Nat) (localAddr dst target : String)
    (ttl pid : Int) (timeout : Nat) (seq : Int) (hl : env.listen localAddr = none)
    (ht : env.setTTL ttl = none) (hd : env.setDeadline = none)
    (hw : env.write dst (encodeEchoRequest pid seq) = none) :
    SendICMP L env t0 localAddr dst target ttl pid timeout seq =
      match listenForSpecific L (timeBeforeWrite env t0 + env.writeCost + timeout) target
          (CorrelationPayload seq) seq (encodeEchoRequest pid seq)
          (timeBeforeWrite env t0 + env.writeCost) env.reads with
      | (.ret _ _ (some e), _) => .returned ⟨false, "", 0⟩ (some e)
      | (.ret peer _ none, t6) => .returned ⟨true, peer, (t6 : Int) - (t0 : Int)⟩ none
      | (.panic, _) => .panicked
      | (.pending, _) => .pending := by
  unfold SendICMP
  simp only [hl, ht, hd, hw, timeBeforeWrite]

theorem listenStep_opError (L : IcmpLib) (neededPeer : String) (neededBody : List Nat)
    (needSeq : Int) (sent : List Nat) (r : ReadResult) (msg : String)
    (herr : r.err = some (.opError msg)) :
    listenStep L neededPeer neededBody needSeq sent r = .ret "" [] (some (.opError msg)) := by
  unfold listenStep
  simp only [herr]

theorem listenStep_otherError_empty (L : IcmpLib) (neededPeer : String) (neededBody : List Nat)
    (needSeq : Int) (sent : List Nat) (peer : Option String) (msg : String) (b : List Nat)
    (w : Nat) :
    listenStep L neededPeer neededBody needSeq sent ⟨0, peer, some (.otherError msg), b, w⟩ =
      .next .emptyRead := by
  unfold listenStep
  simp

theorem parseExtensions_short (L : IcmpLib) (b : List Nat) (l : Nat) (h : b.length < 136) :
    parseExtensions L b l = none := by
  unfold parseExtensions
  simp only []
  by_cases hc : 128 > l ∨ l + 8 > b.length
  · rw [if_pos hc, if_pos (by omega)]
  · rw [if_neg hc, if_pos (by omega)]

theorem ParseMessage_timeExceeded_short (L : IcmpLib) (c k1 k2 u1 u2 u3 u4 : Nat)
    (data : List Nat) (h : data.length < 136) :
    ParseMessage L (11 :: c :: k1 :: k2 :: u1 :: u2 :: u3 :: u4 :: data) =
      some ⟨11, c, uint16BE k1 k2, .timeExceeded data⟩ := by
  simp only [ParseMessage, parseTimeExceeded, parseMultipartMessageBody]
  simp only [List.drop_succ_cons, List.drop_zero, List.length_cons]
  rw [parseExtensions_short L data _ h]
  cases data with
  | nil => simp
  | cons a t => simp

theorem echoReplyBranch_timeExceeded (peer : Option String) (neededBody : List Nat) (c k : Nat)
    (body : MessageBody) :
    echoReplyBranch peer neededBody ⟨11, c, k, body⟩ = .next .endOfBody := by
  unfold echoReplyBranch
  rw [if_neg]
  rw [ICMPTypeString_echoReply]
  simp

/-- The step taken on a time-exceeded message that passed the peer filter. -/
theorem listenStep_timeExceeded (L : IcmpLib) (neededPeer p : String) (neededBody : List Nat)
    (needSeq : Int) (sent : List Nat) (r : ReadResult) (c k : Nat) (data : List Nat)
    (hn : r.n ≠ 0) (herr : r.err = none) (hpeer : r.peer = some p)
    (hfilter : neededPeer = "" ∨ neededPeer = p) (hlen : 4 ≤ sent.length)
    (hparse : ParseMessage L (r.b.take r.n) = some ⟨11, c, k, .timeExceeded data⟩) :
    listenStep L neededPeer neededBody needSeq sent r =
      if 0 < bytesIndex data (sent.take 4) then
        match ParseMessage L (data.drop (bytesIndex data (sent.take 4)).toNat) with
        | none => .panic
        | some x2 =>
          match x2.Body with
          | .echo _ seq _ => if (seq : Int) = needSeq then .ret p [] none else .next .endOfBody
          | _ => .next .endOfBody
      else .next .endOfBody := by
  rw [listenStep_passed L neededPeer p neededBody needSeq sent r hn herr hpeer hfilter, hparse]
  simp only []
  rw [timeExceededBranch_eq L (some p) needSeq sent c k data hlen]
  by_cases hi : 0 < bytesIndex data (sent.take 4)
  · rw [if_pos hi, if_pos hi]
    cases hp : ParseMessage L (data.drop (bytesIndex data (sent.take 4)).toNat) with
    | none => rfl
    | some x2 =>
      simp only []
      cases hb : x2.Body with
      | echo i q d =>
        simp only []
        by_cases hq : (q : Int) = needSeq
        · rw [if_pos hq, if_pos hq]
        · rw [if_neg hq, if_neg hq]
          exact echoReplyBranch_timeExceeded _ _ _ _ _
      | timeExceeded d => exact echoReplyBranch_timeExceeded _ _ _ _ _
      | other => exact echoReplyBranch_timeExceeded _ _ _ _ _
  · rw [if_neg hi, if_neg hi]
    exact echoReplyBranch_timeExceeded _ _ _ _ _

theorem take4_encodeEchoRequest (pid seq : Int) :
    (encodeEchoRequest pid seq).take 4 =
      [8, 0, byte (checksum ([8, 0, 0, 0] ++ Echo.Marshal pid seq (CorrelationPayload seq))),
        byte (checksum ([8, 0, 0, 0] ++ Echo.Marshal pid seq (CorrelationPayload seq)) / 256)] := by
  rw [encodeEchoRequest_bytes]
  rfl

/-- The step on a time-exceeded message in whose data the key of the probe
for `(pid, S)` is first found at a positive offset, where the request encoded
for `(pid, S)` sits. -/
theorem listenStep_embedded_request (L : IcmpLib) (neededPeer p : String)
    (neededBody : List Nat) (needSeq : Int) (sent : List Nat) (pid S : Int) (r : ReadResult)
    (c k : Nat) (data pre post : List Nat)
    (hn : r.n ≠ 0) (herr : r.err = none) (hpeer : r.peer = some p)
    (hfilter : neededPeer = "" ∨ neededPeer = p) (hlen : 4 ≤ sent.length)
    (hparse : ParseMessage L (r.b.take r.n) = some ⟨11, c, k, .timeExceeded data⟩)
    (hdata : data = pre ++ encodeEchoRequest pid S ++ post) (hpos : 0 < pre.length)
    (hidx : bytesIndex data (sent.take 4) = pre.length) :
    listenStep L neededPeer neededBody needSeq sent r =
      if (uint16 S : Int) = needSeq then .ret p [] none else .next .endOfBody := by
  rw [listenStep_timeExceeded L neededPeer p neededBody needSeq sent r c k data hn herr hpeer
    hfilter hlen hparse, hidx, if_pos (by omega)]
  have hdrop : data.drop ((pre.length : Int)).toNat = encodeEchoRequest pid S ++ post := by
    rw [hdata, Int.toNat_ofNat, List.append_assoc, List.drop_left]
  obtain ⟨ck, hck⟩ := ParseMessage_encodeEchoRequest L pid S post
  rw [hdrop, hck]

theorem ParseMessage_request_lib (L L' : IcmpLib) (b : List Nat) (h : b.head? = some 8) :
    ParseMessage L b = ParseMessage L' b := by
  match b, h with
  | [_], _ => rfl
  | [_, _], _ => rfl
  | [_, _, _], _ => rfl
  | t :: c :: k1 :: k2 :: rest, h =>
    simp only [List.head?_cons, Option.some.injEq] at h
    subst h
    simp [ParseMessage]

/-- On a time-exceeded datagram with fewer than 136 bytes of data, and for a
probe whose request starts with the echo type byte, the step does not depend
on the parts of the library taken as given. -/
theorem listenStep_timeExceededPacket_lib (L L' : IcmpLib) (neededPeer p : String)
    (neededBody : List Nat) (needSeq : Int) (sent : List Nat) (data : List Nat) (n w : Nat)
    (hfilter : neededPeer = "" ∨ neededPeer = p) (hlen : 4 ≤ sent.length)
    (hsent : sent.head? = some 8) (hshort : data.length < 136)
    (hn : n = (timeExceededPacket data).length) :
    listenStep L neededPeer neededBody needSeq sent
        ⟨n, some p, none, timeExceededPacket data, w⟩ =
      listenStep L' neededPeer neededBody needSeq sent
        ⟨n, some p, none, timeExceededPacket data, w⟩ := by
  have hp : ∀ M : IcmpLib, ParseMessage M ((timeExceededPacket data).take n) =
      some ⟨11, 0, 0, .timeExceeded data⟩ := by
    intro M
    rw [hn, List.take_length]
    exact ParseMessage_timeExceeded_short M 0 0 0 0 0 0 0 data hshort
  have hn0 : n ≠ 0 := by
    rw [hn]; simp [timeExceededPacket]
  rw [listenStep_timeExceeded L neededPeer p neededBody needSeq sent _ 0 0 data hn0 rfl rfl
      hfilter hlen (hp L),
    listenStep_timeExceeded L' neededPeer p neededBody needSeq sent _ 0 0 data hn0 rfl rfl
      hfilter hlen (hp L')]
  by_cases hi : 0 < bytesIndex data (sent.take 4)
  · rw [if_pos hi, if_pos hi]
    have hfound := bytesIndex_found data (sent.take 4) (by omega)
    have h8 : (data.drop (bytesIndex data (sent.take 4)).toNat).head? = some 8 := by
      obtain ⟨t, ht⟩ := hfound
      rw [← ht]
      match sent, hlen, hsent with
      | a :: b :: c :: d :: _, _, hs =>
        simp only [List.head?_cons, Option.some.injEq] at hs
        simp [hs]
    rw [ParseMessage_request_lib L L' _ h8]
  · rw [if_neg hi, if_neg hi]

theorem ParseMessage_request_short (L : IcmpLib) (b : List Nat) (h8 : b.head? = some 8)
    (hlen : b.length < 8) : ParseMessage L b = none := by
  match b, h8, hlen with
  | [_], _, _ => rfl
  | [_, _], _, _ => rfl
  | [_, _, _], _, _ => rfl
  | [t, c, k1, k2], h, _ =>
    simp only [List.head?_cons, Option.some.injEq] at h
    subst h
    simp [ParseMessage, parseEcho]
  | [t, c, k1, k2, _], h, _ =>
    simp only [List.head?_cons, Option.some.injEq] at h
    subst h
    simp [ParseMessage, parseEcho]
  | [t, c, k1, k2, _, _], h, _ =>
    simp only [List.head?_cons, Option.some.injEq] at h
    subst h
    simp [ParseMessage, parseEcho]
  | [t, c, k1, k2, _, _, _], h, _ =>
    simp only [List.head?_cons, Option.some.injEq] at h
    subst h
    simp [ParseMessage, parseEcho]
  | _ :: _ :: _ :: _ :: _ :: _ :: _ :: _ :: _, _, hl =>
    simp only [List.length_cons] at hl
    omega

/-- A parsed message of type 0 or 8 carries an echo body and one of type 11 a
time-exceeded body, so the type assertion of line 99 never fails and the
`Marshal` call of line 117 is always that of `*icmp.Echo`. -/
theorem ParseMessage_body (L : IcmpLib) (b : List Nat) (x : Message)
    (h : ParseMessage L b = some x) :
    ((x.Typ = 0 ∨ x.Typ = 8) → ∃ i s d, x.Body = .echo i s d) ∧
      (x.Typ = 11 → ∃ d, x.Body = .timeExceeded d) := by
  match b, h with
  | t :: c :: k1 :: k2 :: rest, h =>
    simp only [ParseMessage] at h
    by_cases h08 : t = 0 ∨ t = 8
    · rw [if_pos h08] at h
      match rest, h with
      | i1 :: i2 :: s1 :: s2 :: d, h =>
        simp only [parseEcho, Option.map_some', Option.some.injEq] at h
        subst h
        refine ⟨fun _ => ⟨_, _, _, rfl⟩, fun h11 => ?_⟩
        simp only at h11
        omega
    · rw [if_neg h08] at h
      by_cases h11 : t = 11
      · rw [if_pos h11] at h
        simp only [parseTimeExceeded] at h
        split at h
        · simp at h
        · simp only [Option.map_some', Option.some.injEq] at h
          subst h
          exact ⟨fun h0 => absurd h0 h08, fun _ => ⟨_, rfl⟩⟩
      · rw [if_neg h11] at h
        split at h
        · simp only [Option.map_some', Option.some.injEq] at h
          subst h
          exact ⟨fun h0 => absurd h0 h08, fun h1 => absurd h1 h11⟩
        · simp at h

/-- A datagram that passed the peer filter and does not parse as an ICMP
message is discarded. -/
theorem listenStep_unparsable (L : IcmpLib) (neededPeer p : String) (neededBody : List Nat)
    (needSeq : Int) (sent : List Nat) (r : ReadResult) (hn : r.n ≠ 0) (herr : r.err = none)
    (hpeer : r.peer = some p) (hfilter : neededPeer = "" ∨ neededPeer = p)
    (hparse : ParseMessage L (r.b.take r.n) = none) :
    listenStep L neededPeer neededBody needSeq sent r = .next .parseError := by
  rw [listenStep_passed L neededPeer p neededBody needSeq sent r hn herr hpeer hfilter, hparse]

/-- A time-exceeded message whose embedded message parses as an echo with
another sequence than the probe's is discarded. -/
theorem listenStep_other_sequence (L : IcmpLib) (neededPeer p : String)
    (neededBody : List Nat) (needSeq : Int) (sent : List Nat) (r : ReadResult) (c k : Nat)
    (data : List Nat) (x2 : Message) (i q : Nat) (d : List Nat)
    (hn : r.n ≠ 0) (herr : r.err = none) (hpeer : r.peer = some p)
    (hfilter : neededPeer = "" ∨ neededPeer = p) (hlen : 4 ≤ sent.length)
    (hparse : ParseMessage L (r.b.take r.n) = some ⟨11, c, k, .timeExceeded data⟩)
    (hidx : 0 < bytesIndex data (sent.take 4))
    (hinner : ParseMessage L (data.drop (bytesIndex data (sent.take 4)).toNat) = some x2)
    (hbody : x2.Body = .echo i q d) (hq : (q : Int) ≠ needSeq) :
    listenStep L neededPeer neededBody needSeq sent r = .next .endOfBody := by
  rw [listenStep_timeExceeded L neededPeer p neededBody needSeq sent r c k data hn herr hpeer
    hfilter hlen hparse, if_pos hidx, hinner]
  simp only [hbody]
  rw [if_neg hq]

/-- A time-exceeded message in whose data the key is first found at offset 0
is never a match: line 102 asks for `index > 0`. -/
theorem listenStep_offset_zero (L : IcmpLib) (neededPeer p : String)
    (neededBody : List Nat) (needSeq : Int) (sent : List Nat) (r : ReadResult) (c k : Nat)
    (data : List Nat) (hn : r.n ≠ 0) (herr : r.err = none) (hpeer : r.peer = some p)
    (hfilter : neededPeer = "" ∨ neededPeer = p) (hlen : 4 ≤ sent.length)
    (hparse : ParseMessage L (r.b.take r.n) = some ⟨11, c, k, .timeExceeded data⟩)
    (hidx : bytesIndex data (sent.take 4) = 0) :
    listenStep L neededPeer neededBody needSeq sent r = .next .endOfBody := by
  rw [listenStep_timeExceeded L neededPeer p neededBody needSeq sent r c k data hn herr hpeer
    hfilter hlen hparse, hidx, if_neg (by omega)]

/-! ## The claims -/

/-- C1 (as amended). A time-exceeded message that passed the peer filter and
whose original-datagram data holds the request encoded for `(pid, S)` at an
offset `k ≥ 1` (`k` is the length of `pre`), with `0 ≤ S < 65536` and no
occurrence of the first four bytes of that request before `k`, makes
`listenForSpecific` return the sender with a nil error, so that SendICMP
returns Success=true with that address. For the probe with sequence `S + 1`
the same message is discarded and the loop goes on to the next read when the
first four bytes of that probe's request occur nowhere in the data, or when
their first occurrence, at a positive offset, is followed by two identifier
bytes and two sequence bytes that encode another value than `S + 1`; it is a
match when those sequence bytes encode `S + 1`. -/
theorem C1_time_exceeded_match (L : IcmpLib) (deadline now : Nat) (neededPeer p : String)
    (neededBody : List Nat) (pid S : Int) (r : ReadResult) (rest : List ReadResult)
    (c k : Nat) (data pre post : List Nat)
    (hn : r.n ≠ 0) (herr : r.err = none) (hpeer : r.peer = some p)
    (hfilter : neededPeer = "" ∨ neededPeer = p)
    (hparse : ParseMessage L (r.b.take r.n) = some ⟨11, c, k, .timeExceeded data⟩)
    (hdata : data = pre ++ encodeEchoRequest pid S ++ post) (hpos : 0 < pre.length)
    (hS : 0 ≤ S ∧ S < 65536) :
    ((∀ j, j < pre.length → ¬ (encodeEchoRequest pid S).take 4 <+: data.drop j) →
        listenForSpecific L deadline neededPeer neededBody S (encodeEchoRequest pid S) now
            (r :: rest) = (.ret p [] none, now + r.wait) ∧
          (∀ (env : Env) (t0 : Nat) (localAddr dst : String) (ttl : Int) (timeout : Nat)
              (skipped : List ReadResult),
            env.listen localAddr = none → env.setTTL ttl = none → env.setDeadline = none →
            env.write dst (encodeEchoRequest pid S) = none →
            env.reads = skipped ++ r :: rest →
            (∀ q ∈ skipped, ∃ site, listenStep L neededPeer (CorrelationPayload S) S
              (encodeEchoRequest pid S) q = .next site) →
            ∃ elapsed, SendICMP L env t0 localAddr dst neededPeer ttl pid timeout S =
              .returned ⟨true, p, elapsed⟩ none)) ∧
      (bytesIndex data ((encodeEchoRequest pid (S + 1)).take 4) = -1 →
        listenStep L neededPeer neededBody (S + 1) (encodeEchoRequest pid (S + 1)) r =
            .next .endOfBody ∧
          listenForSpecific L deadline neededPeer neededBody (S + 1)
              (encodeEchoRequest pid (S + 1)) now (r :: rest) =
            listenForSpecific L deadline neededPeer neededBody (S + 1)
              (encodeEchoRequest pid (S + 1)) (now + r.wait) rest) ∧
      (∀ (j i1 i2 s1 s2 : Nat) (d : List Nat),
        bytesIndex data ((encodeEchoRequest pid (S + 1)).take 4) = j → 0 < j →
        data.drop j = (encodeEchoRequest pid (S + 1)).take 4 ++ i1 :: i2 :: s1 :: s2 :: d →
        (((uint16BE s1 s2 : Nat) : Int) ≠ S + 1 →
            listenStep L neededPeer neededBody (S + 1) (encodeEchoRequest pid (S + 1)) r =
                .next .endOfBody ∧
              listenForSpecific L deadline neededPeer neededBody (S + 1)
                  (encodeEchoRequest pid (S + 1)) now (r :: rest) =
                listenForSpecific L deadline neededPeer neededBody (S + 1)
                  (encodeEchoRequest pid (S + 1)) (now + r.wait) rest) ∧
          (((uint16BE s1 s2 : Nat) : Int) = S + 1 →
            listenForSpecific L deadline neededPeer neededBody (S + 1)
                (encodeEchoRequest pid (S + 1)) now (r :: rest) =
              (.ret p [] none, now + r.wait))) := by
  have hcast : (uint16 S : Int) = S := uint16_cast S hS.1 hS.2
  have hl4 : ∀ q s : Int, 4 ≤ (encodeEchoRequest q s).length := by
    intro q s
    rw [encodeEchoRequest_length]
    omega
  refine ⟨?_, ?_, ?_⟩
  · intro hfirst
    have hocc : (encodeEchoRequest pid S).take 4 <+: data.drop pre.length := by
      rw [hdata, List.append_assoc, List.drop_left]
      exact (List.take_prefix _ _).trans (List.prefix_append _ _)
    have hidx : bytesIndex data ((encodeEchoRequest pid S).take 4) = pre.length :=
      bytesIndex_eq_of_first data _ pre.length hocc (by rw [hdata]; simp) hfirst
    have hstep : ∀ nb : List Nat, listenStep L neededPeer nb S (encodeEchoRequest pid S) r =
        .ret p [] none := by
      intro nb
      rw [listenStep_embedded_request L neededPeer p nb S _ pid S r c k data pre post hn
        herr hpeer hfilter (hl4 pid S) hparse hdata hpos hidx, if_pos hcast]
    refine ⟨?_, ?_⟩
    · rw [listenForSpecific_cons, hstep]
    · intro env t0 localAddr dst ttl timeout skipped hl ht hd hw hreads hskip
      rw [SendICMP_sent L env t0 localAddr dst neededPeer ttl pid timeout S hl ht hd hw, hreads,
        listenForSpecific_skip _ _ _ _ _ _ skipped (r :: rest) _ hskip,
        listenForSpecific_cons, hstep]
      exact ⟨_, rfl⟩
  · intro h
    have hstep : listenStep L neededPeer neededBody (S + 1) (encodeEchoRequest pid (S + 1)) r =
        .next .endOfBody := by
      rw [listenStep_timeExceeded L neededPeer p neededBody (S + 1) _ r c k data hn herr
        hpeer hfilter (hl4 pid (S + 1)) hparse, h, if_neg (by omega)]
    exact ⟨hstep, by rw [listenForSpecific_cons, hstep]⟩
  · intro j i1 i2 s1 s2 d hj hjpos hdrop
    have hstep : listenStep L neededPeer neededBody (S + 1) (encodeEchoRequest pid (S + 1)) r =
        if ((uint16BE s1 s2 : Nat) : Int) = S + 1 then .ret p [] none
        else .next .endOfBody := by
      rw [listenStep_timeExceeded L neededPeer p neededBody (S + 1) _ r c k data hn herr
        hpeer hfilter (hl4 pid (S + 1)) hparse, hj, if_pos (by omega), Int.toNat_ofNat, hdrop,
        take4_encodeEchoRequest]
      simp only [List.cons_append, List.nil_append]
      rw [ParseMessage_echo L 8 _ _ _ _ _ _ _ _ (Or.inr rfl)]
    refine ⟨fun hne => ?_, fun heq => ?_⟩
    · rw [if_neg hne] at hstep
      exact ⟨hstep, by rw [listenForSpecific_cons, hstep]⟩
    · rw [if_pos heq] at hstep
      rw [listenForSpecific_cons, hstep]

/-- C1 (as amended) at a message from 10.0.0.1 that quotes the request for
pid 100 and sequence 7 behind a 20-byte IP header whose bytes 4 to 11 are the
first four bytes of the request for sequence 8, the identifier 100 and the
sequence 9: the probe with sequence 7 gets the sender back, the probe with
sequence 8 discards the message. -/
theorem C1_time_exceeded_match_witness :
    listenForSpecific noExtensions 2000 "" (CorrelationPayload 7) 7 (encodeEchoRequest 100 7) 0
        [⟨41, some "10.0.0.1", none,
          timeExceededPacket
            ([69, 0, 0, 33, 8, 0, 119, 147, 0, 100, 0, 9, 10, 0, 0, 1, 1, 2, 3, 4] ++
              encodeEchoRequest 100 7), 5⟩] =
      (.ret "10.0.0.1" [] none, 0 + 5) ∧
      listenStep noExtensions "" (CorrelationPayload 8) (7 + 1) (encodeEchoRequest 100 (7 + 1))
        ⟨41, some "10.0.0.1", none,
          timeExceededPacket
            ([69, 0, 0, 33, 8, 0, 119, 147, 0, 100, 0, 9, 10, 0, 0, 1, 1, 2, 3, 4] ++
              encodeEchoRequest 100 7), 5⟩ = .next .endOfBody :=
  ⟨((C1_time_exceeded_match noExtensions 2000 0 "" "10.0.0.1" (CorrelationPayload 7) 100 7
      ⟨41, some "10.0.0.1", none,
        timeExceededPacket
          ([69, 0, 0, 33, 8, 0, 119, 147, 0, 100, 0, 9, 10, 0, 0, 1, 1, 2, 3, 4] ++
            encodeEchoRequest 100 7), 5⟩ []
      0 0
      ([69, 0, 0, 33, 8, 0, 119, 147, 0, 100, 0, 9, 10, 0, 0, 1, 1, 2, 3, 4] ++
        encodeEchoRequest 100 7 ++ [])
      [69, 0, 0, 33, 8, 0, 119, 147, 0, 100, 0, 9, 10, 0, 0, 1, 1, 2, 3, 4] []
      (by decide) rfl rfl (Or.inl rfl) (by decide) rfl (by decide) (by decide)).1
        (by decide)).1,
   (((C1_time_exceeded_match noExtensions 2000 0 "" "10.0.0.1" (CorrelationPayload 8) 100 7
      ⟨41, some "10.0.0.1", none,
        timeExceededPacket
          ([69, 0, 0, 33, 8, 0, 119, 147, 0, 100, 0, 9, 10, 0, 0, 1, 1, 2, 3, 4] ++
            encodeEchoRequest 100 7), 5⟩ []
      0 0
      ([69, 0, 0, 33, 8, 0, 119, 147, 0, 100, 0, 9, 10, 0, 0, 1, 1, 2, 3, 4] ++
        encodeEchoRequest 100 7 ++ [])
      [69, 0, 0, 33, 8, 0, 119, 147, 0, 100, 0, 9, 10, 0, 0, 1, 1, 2, 3, 4] []
      (by decide) rfl rfl (Or.inl rfl) (by decide) rfl (by decide) (by decide)).2.2
        4 0 100 0 9 ([10, 0, 0, 1, 1, 2, 3, 4] ++ encodeEchoRequest 100 7 ++ [])
        (by decide) (by decide) (by decide)).1 (by decide)).1⟩

/-- C1 fails as stated, for the probe with pid 100. (1) Offset 0: the data is
the request for sequence 7 itself; the message is discarded. (2) Sequence
70000: the data is a 20-byte IP header followed by the request for sequence
70000; the message is discarded. (3) The first four bytes of the request for
sequence 7 also occur at offset 4 of the IP header that precedes the request;
the message is discarded. (4) The data holds the request for sequence 8 and
after it the request for sequence 7: the same message is a match for the
probe with sequence 7 and for the probe with sequence 8. -/
theorem C1_offset_zero_wide_sequence_earlier_key :
    (∀ L : IcmpLib,
        listenStep L "" (CorrelationPayload 7) 7 (encodeEchoRequest 100 7)
          ⟨21, some "10.0.0.1", none, timeExceededPacket (encodeEchoRequest 100 7), 5⟩ =
            .next .endOfBody) ∧
      (∀ L : IcmpLib,
        listenStep L "" (CorrelationPayload 70000) 70000 (encodeEchoRequest 100 70000)
          ⟨41, some "10.0.0.1", none,
            timeExceededPacket (ipHeader ++ encodeEchoRequest 100 70000), 5⟩ =
            .next .endOfBody) ∧
      (∀ L : IcmpLib,
        listenStep L "" (CorrelationPayload 7) 7 (encodeEchoRequest 100 7)
          ⟨41, some "10.0.0.1", none,
            timeExceededPacket ([69, 0, 0, 33, 8, 0, 120, 148, 1, 1, 0, 0, 10, 0, 0, 1, 1, 2, 3, 4]
              ++ encodeEchoRequest 100 7), 5⟩ = .next .endOfBody) ∧
      (∀ L : IcmpLib,
        listenStep L "" (CorrelationPayload 7) 7 (encodeEchoRequest 100 7)
            ⟨38, some "10.0.0.1", none,
              timeExceededPacket
                ([0, 0, 0, 0] ++ encodeEchoRequest 100 8 ++ encodeEchoRequest 100 7), 5⟩ =
              .ret "10.0.0.1" [] none ∧
          listenStep L "" (CorrelationPayload 8) 8 (encodeEchoRequest 100 8)
            ⟨38, some "10.0.0.1", none,
              timeExceededPacket
                ([0, 0, 0, 0] ++ encodeEchoRequest 100 8 ++ encodeEchoRequest 100 7), 5⟩ =
              .ret "10.0.0.1" [] none) := by
  refine ⟨fun L => ?_, fun L => ?_, fun L => ?_, fun L => ⟨?_, ?_⟩⟩
  · rw [listenStep_timeExceededPacket_lib L noExtensions "" "10.0.0.1" _ _ _ _ _ _
      (Or.inl rfl) (by decide) (by decide) (by decide) (by decide)]
    decide
  · rw [listenStep_timeExceededPacket_lib L noExtensions "" "10.0.0.1" _ _ _ _ _ _
      (Or.inl rfl) (by decide) (by decide) (by decide) (by decide)]
    decide
  · rw [listenStep_timeExceededPacket_lib L noExtensions "" "10.0.0.1" _ _ _ _ _ _
      (Or.inl rfl) (by decide) (by decide) (by decide) (by decide)]
    decide
  · rw [listenStep_timeExceededPacket_lib L noExtensions "" "10.0.0.1" _ _ _ _ _ _
      (Or.inl rfl) (by decide) (by decide) (by decide) (by decide)]
    decide
  · rw [listenStep_timeExceededPacket_lib L noExtensions "" "10.0.0.1" _ _ _ _ _ _
      (Or.inl rfl) (by decide) (by decide) (by decide) (by decide)]
    decide

/-- C2. For an echo reply that passed the peer filter (type byte 0, then the
code, checksum, identifier and sequence bytes, then `body`), the iteration
returns the sender with a nil error exactly when `body` is
`CorrelationPayload S`, byte for byte; otherwise the packet is discarded and
the loop goes on with the next read. The code, checksum, identifier and
sequence bytes do not enter the result, and a payload with one byte changed
is discarded. -/
theorem C2_echo_reply_matches_iff_payload (L : IcmpLib) (deadline now : Nat)
    (neededPeer p : String) (S needSeq : Int) (sent : List Nat) (r : ReadResult)
    (rest : List ReadResult) (c k1 k2 i1 i2 s1 s2 : Nat) (body : List Nat)
    (herr : r.err = none) (hpeer : r.peer = some p)
    (hfilter : neededPeer = "" ∨ neededPeer = p)
    (hpkt : r.b.take r.n = 0 :: c :: k1 :: k2 :: i1 :: i2 :: s1 :: s2 :: body) :
    (listenStep L neededPeer (CorrelationPayload S) needSeq sent r = .ret p body none ↔
        body = CorrelationPayload S) ∧
      (body = CorrelationPayload S →
        listenForSpecific L deadline neededPeer (CorrelationPayload S) needSeq sent now
            (r :: rest) = (.ret p (CorrelationPayload S) none, now + r.wait)) ∧
      (body ≠ CorrelationPayload S →
        listenStep L neededPeer (CorrelationPayload S) needSeq sent r = .next .bodyMismatch ∧
        listenForSpecific L deadline neededPeer (CorrelationPayload S) needSeq sent now
            (r :: rest) =
          listenForSpecific L deadline neededPeer (CorrelationPayload S) needSeq sent
            (now + r.wait) rest) ∧
      (∀ i v, i < 5 → (CorrelationPayload S).get? i ≠ some v →
        body = (CorrelationPayload S).set i v →
        listenStep L neededPeer (CorrelationPayload S) needSeq sent r = .next .bodyMismatch) := by
  have hstep := listenStep_echoReply L neededPeer p (CorrelationPayload S) needSeq sent r
    c k1 k2 i1 i2 s1 s2 body herr hpeer hfilter hpkt
  have hne : ∀ i v, i < 5 → (CorrelationPayload S).get? i ≠ some v →
      (CorrelationPayload S).set i v ≠ CorrelationPayload S := by
    intro i v hi hv heq
    apply hv
    have hlen : i < (CorrelationPayload S).length := by
      simp [CorrelationPayload, putUint32LE]; omega
    have h1 : ((CorrelationPayload S).set i v).get? i = some v := by
      simp [List.getElem?_set, hlen]
    rw [heq] at h1
    exact h1
  refine ⟨?_, ?_, ?_, ?_⟩
  · rw [hstep]
    by_cases hb : body = CorrelationPayload S <;> simp [hb]
  · intro hb
    rw [listenForSpecific_cons, hstep, if_pos hb, hb]
  · intro hb
    rw [listenForSpecific_cons, hstep, if_neg hb]
    exact ⟨rfl, rfl⟩
  · intro i v hi hv hb
    rw [hstep, if_neg]
    rw [hb]
    exact hne i v hi hv

/-- C2 at the reply to the probe with pid 100 and sequence 7. -/
theorem C2_echo_reply_matches_iff_payload_witness :
    (listenStep noExtensions "" (CorrelationPayload 7) 7
        (encodeEchoRequest 100 7)
        ⟨13, some "1.2.3.4", none, [0, 0, 128, 148, 0, 100, 0, 7, 7, 0, 0, 0, 120], 3⟩ =
          .ret "1.2.3.4" [7, 0, 0, 0, 120] none ↔
        [7, 0, 0, 0, 120] = CorrelationPayload 7) ∧
      listenStep noExtensions "" (CorrelationPayload 7) 7
        (encodeEchoRequest 100 7)
        ⟨13, some "1.2.3.4", none, [0, 0, 128, 148, 0, 100, 0, 7, 7, 0, 0, 0, 120], 3⟩ =
          .ret "1.2.3.4" [7, 0, 0, 0, 120] none :=
  ⟨(C2_echo_reply_matches_iff_payload noExtensions 0 0 "" "1.2.3.4" 7 7
      (encodeEchoRequest 100 7)
      ⟨13, some "1.2.3.4", none, [0, 0, 128, 148, 0, 100, 0, 7, 7, 0, 0, 0, 120], 3⟩ []
      0 128 148 0 100 0 7 [7, 0, 0, 0, 120] rfl rfl (Or.inl rfl) (by decide)).1,
   by decide⟩

/-- C3 (as amended). Parsing the bytes SendICMP marshals for its request
yields an echo message (type 8, code 0) whose identifier is `pid` modulo
65536, whose sequence is `seq` modulo 65536 and whose data is
`CorrelationPayload seq`; the identifier is `pid` and the sequence is `seq`
when both lie in `0 .. 65535`. -/
theorem C3_roundtrip_mod_65536 (L : IcmpLib) (pid seq : Int) :
    (ParseMessage L (encodeEchoRequest pid seq)).map (fun m => (m.Typ, m.Code, m.Body)) =
        some (8, 0, .echo (uint16 pid) (uint16 seq) (CorrelationPayload seq)) ∧
      ((0 ≤ pid ∧ pid < 65536) → (0 ≤ seq ∧ seq < 65536) →
        (ParseMessage L (encodeEchoRequest pid seq)).map (fun m => (m.Typ, m.Code, m.Body)) =
          some (8, 0, .echo pid.toNat seq.toNat (CorrelationPayload seq))) := by
  obtain ⟨k, hk⟩ := ParseMessage_encodeEchoRequest L pid seq []
  simp only [List.append_nil] at hk
  refine ⟨by rw [hk]; rfl, ?_⟩
  intro hp hs
  rw [hk]
  have e1 : uint16 pid = pid.toNat := by unfold uint16; omega
  have e2 : uint16 seq = seq.toNat := by unfold uint16; omega
  rw [e1, e2]; rfl

/-- C3 (as amended) at pid 100 and sequence 7. -/
theorem C3_roundtrip_mod_65536_witness :
    (ParseMessage noExtensions (encodeEchoRequest 100 7)).map (fun m => (m.Typ, m.Code, m.Body)) =
      some (8, 0, .echo 100 7 (CorrelationPayload 7)) :=
  (C3_roundtrip_mod_65536 noExtensions 100 7).2 (by decide) (by decide)

/-- C3 fails as stated at pid 70000, sequence 7: the parsed identifier is 4464. -/
theorem C3_pid_70000_not_reproduced :
    (∀ L : IcmpLib,
        (ParseMessage L (encodeEchoRequest 70000 7)).map (fun m => (m.Typ, m.Code, m.Body)) =
          some (8, 0, .echo 4464 7 [7, 0, 0, 0, 120])) ∧
      ¬ ∃ L : IcmpLib,
        (ParseMessage L (encodeEchoRequest 70000 7)).map (fun m => (m.Typ, m.Code, m.Body)) =
          some (8, 0, .echo 70000 7 (CorrelationPayload 7)) := by
  have h : ∀ L : IcmpLib,
      (ParseMessage L (encodeEchoRequest 70000 7)).map (fun m => (m.Typ, m.Code, m.Body)) =
        some (8, 0, .echo 4464 7 [7, 0, 0, 0, 120]) := by
    intro L
    obtain ⟨k, hk⟩ := ParseMessage_encodeEchoRequest L 70000 7 []
    simp only [List.append_nil] at hk
    rw [hk]
    show some ((8 : Nat), (0 : Nat),
      MessageBody.echo (uint16 70000) (uint16 7) (CorrelationPayload 7)) = _
    decide
  refine ⟨h, ?_⟩
  rintro ⟨L, hL⟩
  rw [h L] at hL
  revert hL
  decide

/-- C4 (as amended). A read that fails with a `*net.OpError`, whatever byte
count comes with it, ends the loop on that iteration: `listenForSpecific`
returns that error, and SendICMP returns Success=false with it, also when the
failing read comes after reads that were discarded. -/
theorem C4_opError_read_ends_loop (L : IcmpLib) (deadline now : Nat) (neededPeer : String)
    (neededBody : List Nat) (needSeq : Int) (sent : List Nat) (r : ReadResult)
    (rest : List ReadResult) (msg : String) (herr : r.err = some (.opError msg)) :
    listenStep L neededPeer neededBody needSeq sent r = .ret "" [] (some (.opError msg)) ∧
      listenForSpecific L deadline neededPeer neededBody needSeq sent now (r :: rest) =
        (.ret "" [] (some (.opError msg)), now + r.wait) ∧
      (∀ (env : Env) (t0 : Nat) (localAddr dst target : String) (ttl pid : Int) (timeout : Nat)
          (seq : Int) (skipped : List ReadResult),
        env.listen localAddr = none → env.setTTL ttl = none → env.setDeadline = none →
        env.write dst (encodeEchoRequest pid seq) = none →
        env.reads = skipped ++ r :: rest →
        (∀ q ∈ skipped, ∃ site, listenStep L target (CorrelationPayload seq) seq
          (encodeEchoRequest pid seq) q = .next site) →
        SendICMP L env t0 localAddr dst target ttl pid timeout seq =
          .returned ⟨false, "", 0⟩ (some (.opError msg))) := by
  refine ⟨listenStep_opError _ _ _ _ _ r msg herr, ?_, ?_⟩
  · rw [listenForSpecific_cons, listenStep_opError _ _ _ _ _ r msg herr]
  · intro env t0 localAddr dst target ttl pid timeout seq skipped hl ht hd hw hreads hskip
    rw [SendICMP_sent L env t0 localAddr dst target ttl pid timeout seq hl ht hd hw, hreads,
      listenForSpecific_skip _ _ _ _ _ _ skipped (r :: rest) _ hskip,
      listenForSpecific_cons, listenStep_opError _ _ _ _ _ r msg herr]

/-- C4 (as amended) at a deadline expiry. -/
theorem C4_opError_read_ends_loop_witness :
    listenStep noExtensions "" (CorrelationPayload 7) 7 (encodeEchoRequest 100 7)
        ⟨0, none, some (.opError "i/o timeout"), [], 2000⟩ =
      .ret "" [] (some (.opError "i/o timeout")) :=
  (C4_opError_read_ends_loop noExtensions 0 0 "" (CorrelationPayload 7) 7
    (encodeEchoRequest 100 7) ⟨0, none, some (.opError "i/o timeout"), [], 2000⟩ []
    "i/o timeout" rfl).1

/-- C4 fails as stated: a read that fails with an error that is not a
`*net.OpError` and with byte count 0 is discarded like an empty read, and the
probe goes on to succeed on the next datagram. -/
theorem C4_other_error_is_discarded :
    (∀ L : IcmpLib,
        listenStep L "" (CorrelationPayload 7) 7 (encodeEchoRequest 100 7)
          ⟨0, none, some (.otherError "invalid connection"), [], 1⟩ = .next .emptyRead) ∧
      (∀ L : IcmpLib,
        SendICMP L
          (calmEnv 0 [⟨0, none, some (.otherError "invalid connection"), [], 1⟩,
            ⟨13, some "1.2.3.4", none, [0, 0, 128, 148, 0, 100, 0, 7, 7, 0, 0, 0, 120], 3⟩])
          0 "0.0.0.0" "1.2.3.4" "" 1 100 2000 7 = .returned ⟨true, "1.2.3.4", 4⟩ none) := by
  refine ⟨fun L => listenStep_otherError_empty L _ _ _ _ _ _ _ _, fun L => ?_⟩
  rw [SendICMP_sent L _ 0 "0.0.0.0" "1.2.3.4" "" 1 100 2000 7 rfl rfl rfl rfl]
  simp only [calmEnv]
  rw [listenForSpecific_cons, listenStep_otherError_empty, listenForSpecific_cons,
    listenStep_echoReply L "" "1.2.3.4" _ _ _ _ 0 128 148 0 100 0 7 [7, 0, 0, 0, 120] rfl rfl
      (Or.inl rfl) (by decide)]
  rw [if_pos (by decide)]
  simp [timeBeforeWrite]

/-- C5. When `icmp.ListenPacket` fails, SendICMP does not return to its
caller: it panics in `log.Panicf`, and the `return hop, err` after it is never
reached. -/
theorem C5_listen_failure_panics (L : IcmpLib) (env : Env) (t0 : Nat)
    (localAddr dst target : String) (ttl pid : Int) (timeout : Nat) (seq : Int) (e : GoError)
    (h : env.listen localAddr = some e) :
    SendICMP L env t0 localAddr dst target ttl pid timeout seq = .panicked := by
  unfold SendICMP
  simp only [h]

/-- C5 at a local address the listener cannot be bound to. -/
theorem C5_listen_failure_panics_witness :
    SendICMP noExtensions
      ⟨fun _ => some (.opError "listen ip4:icmp 256.0.0.1: operation not permitted"), 0,
        fun _ => none, 0, none, 0, 0, fun _ _ => none, 0, []⟩
      0 "256.0.0.1" "1.2.3.4" "" 1 100 2000 7 = .panicked :=
  C5_listen_failure_panics noExtensions _ 0 "256.0.0.1" "1.2.3.4" "" 1 100 2000 7
    (.opError "listen ip4:icmp 256.0.0.1: operation not permitted") rfl

/-- C6. A received non-empty datagram is discarded at the peer test exactly
when the filter is non-empty and differs from the sender's address string,
and then whatever its bytes are; with a non-empty filter an iteration that
returns does so for a sender equal to the filter; with the empty filter,
which is what SendDiscoverICMP passes, no datagram is discarded there. -/
theorem C6_peer_filter (L : IcmpLib) (deadline now : Nat) (neededPeer p : String)
    (neededBody : List Nat) (needSeq : Int) (sent : List Nat) (r : ReadResult)
    (rest : List ReadResult) (hn : r.n ≠ 0) (herr : r.err = none) (hpeer : r.peer = some p) :
    (listenStep L neededPeer neededBody needSeq sent r = .next .peerFilter ↔
        (neededPeer ≠ "" ∧ p ≠ neededPeer)) ∧
      ((neededPeer ≠ "" ∧ p ≠ neededPeer) → ∀ bytes : List Nat,
        listenStep L neededPeer neededBody needSeq sent ⟨r.n, r.peer, r.err, bytes, r.wait⟩ =
            .next .peerFilter ∧
          listenForSpecific L deadline neededPeer neededBody needSeq sent now
              (⟨r.n, r.peer, r.err, bytes, r.wait⟩ :: rest) =
            listenForSpecific L deadline neededPeer neededBody needSeq sent (now + r.wait)
              rest) ∧
      (neededPeer ≠ "" → ∀ q body e,
        listenStep L neededPeer neededBody needSeq sent r = .ret q body e →
          p = neededPeer ∧ q = neededPeer) ∧
      listenStep L "" neededBody needSeq sent r ≠ .next .peerFilter ∧
      (∀ (env : Env) (t0 : Nat) (localAddr dst : String) (ttl pid : Int) (timeout : Nat)
          (seq : Int),
        SendDiscoverICMP L env t0 localAddr dst ttl pid timeout seq =
          SendICMP L env t0 localAddr dst "" ttl pid timeout seq) := by
  have hfilt : (neededPeer ≠ "" ∧ p ≠ neededPeer) →
      listenStep L neededPeer neededBody needSeq sent r = .next .peerFilter := fun h =>
    listenStep_filtered L neededPeer p neededBody needSeq sent r hn herr hpeer h.1 h.2
  have hpass : ∀ np : String, (np = "" ∨ np = p) →
      listenStep L np neededBody needSeq sent r ≠ .next .peerFilter := by
    intro np hf heq
    rcases listenStep_passed_cases L np p neededBody needSeq sent r hn herr hpeer hf
      with h | h | h | h | ⟨b, h⟩ <;> rw [h] at heq <;> simp at heq
  refine ⟨⟨?_, hfilt⟩, ?_, ?_, hpass "" (Or.inl rfl), ?_⟩
  · intro h
    by_contra hc
    have hf : neededPeer = "" ∨ neededPeer = p := by
      by_cases h1 : neededPeer = ""
      · exact Or.inl h1
      · right
        by_contra h2
        exact hc ⟨h1, fun e => h2 e.symm⟩
    exact hpass neededPeer hf h
  · intro h bytes
    have hs := listenStep_filtered L neededPeer p neededBody needSeq sent
      ⟨r.n, r.peer, r.err, bytes, r.wait⟩ hn herr hpeer h.1 h.2
    refine ⟨hs, ?_⟩
    rw [listenForSpecific_cons, hs]
  · intro hne q body e hret
    by_cases hp : p = neededPeer
    · refine ⟨hp, ?_⟩
      rcases listenStep_passed_cases L neededPeer p neededBody needSeq sent r hn herr hpeer
        (Or.inr hp.symm) with h | h | h | h | ⟨b, h⟩ <;> rw [h] at hret <;> simp at hret
      rw [← hret.1, hp]
    · rw [hfilt ⟨hne, hp⟩] at hret
      simp at hret
  · intro env t0 localAddr dst ttl pid timeout seq
    rfl

/-- C6 at a correct reply that comes from another address than the filter. -/
theorem C6_peer_filter_witness :
    (13 : Nat) ≠ 0 ∧
      (listenStep noExtensions "1.2.3.4" (CorrelationPayload 7) 7
          (encodeEchoRequest 100 7)
          ⟨13, some "9.9.9.9", none, [0, 0, 128, 148, 0, 100, 0, 7, 7, 0, 0, 0, 120], 3⟩ =
            .next .peerFilter ↔ (("1.2.3.4" : String) ≠ "" ∧ ("9.9.9.9" : String) ≠ "1.2.3.4")) ∧
      listenStep noExtensions "1.2.3.4" (CorrelationPayload 7) 7
          (encodeEchoRequest 100 7)
          ⟨13, some "9.9.9.9", none, [0, 0, 128, 148, 0, 100, 0, 7, 7, 0, 0, 0, 120], 3⟩ =
            .next .peerFilter :=
  ⟨by decide,
   (C6_peer_filter noExtensions 0 0 "1.2.3.4" "9.9.9.9"
      (CorrelationPayload 7) 7 (encodeEchoRequest 100 7)
      ⟨13, some "9.9.9.9", none, [0, 0, 128, 148, 0, 100, 0, 7, 7, 0, 0, 0, 120], 3⟩ []
      (by decide) rfl rfl).1,
   by decide⟩

/-- C7. A time-exceeded message in whose data the first four bytes of the
request are first found at a positive offset with fewer than eight bytes left
from there makes the iteration panic: `icmp.ParseMessage` fails on the
sub-region, its error is dropped, and the nil message is dereferenced. The
loop ends in that panic instead of going on to the next read. -/
theorem C7_short_embedded_request_panics (L : IcmpLib) (deadline now : Nat)
    (neededPeer p : String) (neededBody : List Nat) (needSeq pid seq : Int) (r : ReadResult)
    (rest : List ReadResult) (c k : Nat) (data : List Nat)
    (hn : r.n ≠ 0) (herr : r.err = none) (hpeer : r.peer = some p)
    (hfilter : neededPeer = "" ∨ neededPeer = p)
    (hparse : ParseMessage L (r.b.take r.n) = some ⟨11, c, k, .timeExceeded data⟩)
    (hidx : 0 < bytesIndex data ((encodeEchoRequest pid seq).take 4))
    (hshort : data.length < (bytesIndex data ((encodeEchoRequest pid seq).take 4)).toNat + 8) :
    listenStep L neededPeer neededBody needSeq (encodeEchoRequest pid seq) r = .panic ∧
      listenForSpecific L deadline neededPeer neededBody needSeq (encodeEchoRequest pid seq)
        now (r :: rest) = (.panic, now + r.wait) := by
  have hl4 : 4 ≤ (encodeEchoRequest pid seq).length := by
    rw [encodeEchoRequest_length]
    omega
  have hstep : listenStep L neededPeer neededBody needSeq (encodeEchoRequest pid seq) r =
      .panic := by
    rw [listenStep_timeExceeded L neededPeer p neededBody needSeq _ r c k data hn herr hpeer
      hfilter hl4 hparse, if_pos hidx]
    have hfound := bytesIndex_found data ((encodeEchoRequest pid seq).take 4) (by omega)
    have h8 : (data.drop (bytesIndex data ((encodeEchoRequest pid seq).take 4)).toNat).head? =
        some 8 := by
      obtain ⟨t, ht⟩ := hfound
      rw [← ht, take4_encodeEchoRequest]
      rfl
    rw [ParseMessage_request_short L _ h8 (by rw [List.length_drop]; omega)]
  exact ⟨hstep, by rw [listenForSpecific_cons, hstep]⟩

/-- C7 at a time-exceeded message that quotes the IP header and only seven
bytes of the request for pid 100, sequence 7. -/
theorem C7_short_embedded_request_panics_witness :
    listenStep noExtensions "" (CorrelationPayload 7) 7 (encodeEchoRequest 100 7)
        ⟨35, some "10.0.0.1", none,
          timeExceededPacket (ipHeader ++ [8, 0, 120, 148, 0, 100, 0]), 5⟩ = .panic ∧
      listenForSpecific noExtensions 2000 "" (CorrelationPayload 7) 7 (encodeEchoRequest 100 7)
        0 [⟨35, some "10.0.0.1", none,
          timeExceededPacket (ipHeader ++ [8, 0, 120, 148, 0, 100, 0]), 5⟩] = (.panic, 0 + 5) :=
  C7_short_embedded_request_panics noExtensions 2000 0 "" "10.0.0.1" (CorrelationPayload 7) 7
    100 7 ⟨35, some "10.0.0.1", none,
      timeExceededPacket (ipHeader ++ [8, 0, 120, 148, 0, 100, 0]), 5⟩ [] 0 0
    (ipHeader ++ [8, 0, 120, 148, 0, 100, 0]) (by decide) rfl rfl (Or.inl rfl) (by decide)
    (by decide) (by decide)

/-- C8 (as amended). For every successful probe, Elapsed is the clock just
after the first correlated reply minus the clock at the entry of SendICMP,
read before the listener is opened: it is the time from just before the write
to the reply plus the time taken to open and configure the socket and to
encode the request. -/
theorem C8_elapsed_measured_from_entry (L : IcmpLib) (env : Env) (t0 : Nat)
    (localAddr dst target : String) (ttl pid : Int) (timeout : Nat) (seq : Int)
    (hop : ICMPReturn)
    (h : SendICMP L env t0 localAddr dst target ttl pid timeout seq = .returned hop none) :
    hop.Success = true ∧
      hop.Elapsed =
        ((listenForSpecific L (timeBeforeWrite env t0 + env.writeCost + timeout) target
          (CorrelationPayload seq) seq (encodeEchoRequest pid seq)
          (timeBeforeWrite env t0 + env.writeCost) env.reads).2 : Int) - (t0 : Int) ∧
      hop.Elapsed =
        (((listenForSpecific L (timeBeforeWrite env t0 + env.writeCost + timeout) target
          (CorrelationPayload seq) seq (encodeEchoRequest pid seq)
          (timeBeforeWrite env t0 + env.writeCost) env.reads).2 : Int) -
            (timeBeforeWrite env t0 : Int)) +
          ((env.listenCost + env.setTTLCost + env.setDeadlineCost + env.encodeCost : Nat) :
            Int) := by
  cases hl : env.listen localAddr with
  | some e => simp [SendICMP, hl] at h
  | none =>
    cases ht : env.setTTL ttl with
    | some e => simp [SendICMP, hl, ht] at h
    | none =>
      cases hd : env.setDeadline with
      | some e => simp [SendICMP, hl, ht, hd] at h
      | none =>
        cases hw : env.write dst (encodeEchoRequest pid seq) with
        | some e => simp [SendICMP, hl, ht, hd, hw] at h
        | none =>
          rw [SendICMP_sent L env t0 localAddr dst target ttl pid timeout seq hl ht hd hw] at h
          revert h
          cases hloop : listenForSpecific L (timeBeforeWrite env t0 + env.writeCost + timeout)
              target (CorrelationPayload seq) seq (encodeEchoRequest pid seq)
              (timeBeforeWrite env t0 + env.writeCost) env.reads with
          | mk o t6 =>
            cases o with
            | ret peer body err =>
              cases err with
              | some e => simp
              | none =>
                simp only [Result.returned.injEq, and_true]
                intro h
                rw [← h]
                refine ⟨rfl, rfl, ?_⟩
                simp only [timeBeforeWrite]
                push_cast
                ring
            | panic => simp
            | pending => simp

/-- C8 (as amended) at a probe whose listener takes 5 to open and whose reply
comes after 3. -/
theorem C8_elapsed_measured_from_entry_witness :
    SendICMP noExtensions
        (calmEnv 5 [⟨13, some "1.2.3.4", none, [0, 0, 128, 148, 0, 100, 0, 7, 7, 0, 0, 0, 120], 3⟩])
        0 "0.0.0.0" "1.2.3.4" "" 1 100 2000 7 = .returned ⟨true, "1.2.3.4", 8⟩ none ∧
      (⟨true, "1.2.3.4", 8⟩ : ICMPReturn).Success = true :=
  ⟨by decide,
   (C8_elapsed_measured_from_entry noExtensions
      (calmEnv 5 [⟨13, some "1.2.3.4", none, [0, 0, 128, 148, 0, 100, 0, 7, 7, 0, 0, 0, 120], 3⟩])
      0 "0.0.0.0" "1.2.3.4" "" 1 100 2000 7 ⟨true, "1.2.3.4", 8⟩ (by decide)).1⟩

/-- C8 fails as stated: the listener takes 5 to open, the reply comes 3 after
the write; Elapsed is 8, while the time from just before the write to the
reply is 3. -/
theorem C8_elapsed_includes_setup :
    (∀ L : IcmpLib,
        SendICMP L
          (calmEnv 5 [⟨13, some "1.2.3.4", none, [0, 0, 128, 148, 0, 100, 0, 7, 7, 0, 0, 0, 120], 3⟩])
          0 "0.0.0.0" "1.2.3.4" "" 1 100 2000 7 = .returned ⟨true, "1.2.3.4", 8⟩ none) ∧
      (∀ L : IcmpLib,
        ((listenForSpecific L 2005 "" (CorrelationPayload 7) 7 (encodeEchoRequest 100 7) 5
          [⟨13, some "1.2.3.4", none, [0, 0, 128, 148, 0, 100, 0, 7, 7, 0, 0, 0, 120], 3⟩]).2 :
            Int) -
          (timeBeforeWrite
            (calmEnv 5
              [⟨13, some "1.2.3.4", none, [0, 0, 128, 148, 0, 100, 0, 7, 7, 0, 0, 0, 120], 3⟩])
            0 : Int) = 3) := by
  have hstep : ∀ L : IcmpLib,
      listenStep L "" (CorrelationPayload 7) 7 (encodeEchoRequest 100 7)
        ⟨13, some "1.2.3.4", none, [0, 0, 128, 148, 0, 100, 0, 7, 7, 0, 0, 0, 120], 3⟩ =
          .ret "1.2.3.4" [7, 0, 0, 0, 120] none := by
    intro L
    rw [listenStep_echoReply L "" "1.2.3.4" _ _ _ _ 0 128 148 0 100 0 7 [7, 0, 0, 0, 120] rfl rfl
      (Or.inl rfl) (by decide)]
    rw [if_pos (by decide)]
  refine ⟨fun L => ?_, fun L => ?_⟩
  · rw [SendICMP_sent L _ 0 "0.0.0.0" "1.2.3.4" "" 1 100 2000 7 rfl rfl rfl rfl]
    simp only [calmEnv]
    rw [listenForSpecific_cons, hstep]
    simp [timeBeforeWrite]
  · rw [listenForSpecific_cons, hstep]
    simp [timeBeforeWrite, calmEnv]

/-- C9 (as amended). Two sequence values have the same CorrelationPayload
exactly when they agree modulo 2^32; in particular distinct values in
`0 .. 2^32 - 1` have distinct payloads. -/
theorem C9_payload_injective_mod (s1 s2 : Int) :
    (CorrelationPayload s1 = CorrelationPayload s2 ↔ s1 % 4294967296 = s2 % 4294967296) ∧
      (0 ≤ s1 → s1 < 4294967296 → 0 ≤ s2 → s2 < 4294967296 → s1 ≠ s2 →
        CorrelationPayload s1 ≠ CorrelationPayload s2) := by
  have key : CorrelationPayload s1 = CorrelationPayload s2 ↔
      s1 % 4294967296 = s2 % 4294967296 := by
    simp only [CorrelationPayload, putUint32LE, uint32, byte, List.cons_append, List.nil_append,
      List.cons.injEq, and_true]
    constructor
    · rintro ⟨h0, h1, h2, h3⟩
      omega
    · intro h
      rw [h]
      simp
  refine ⟨key, ?_⟩
  intro h1 h2 h3 h4 hne heq
  have := key.1 heq
  omega

/-- C9 (as amended) at the sequence values 7 and 8. -/
theorem C9_payload_injective_mod_witness : CorrelationPayload 7 ≠ CorrelationPayload 8 :=
  (C9_payload_injective_mod 7 8).2 (by decide) (by decide) (by decide) (by decide) (by decide)

/-- C9 fails as stated: the sequence values 0 and 2^32 have the same payload. -/
theorem C9_payload_collision :
    CorrelationPayload 0 = CorrelationPayload 4294967296 ∧ (0 : Int) ≠ 4294967296 := by
  decide

/-- C10 (as amended). In the time-exceeded path the 4-byte key searched for
in the original-datagram data is the first four bytes of the marshalled
request: type 8, code 0 and the two checksum bytes. When its first occurrence
is at a positive offset, the sub-region from that offset on is what is parsed
as the embedded message; when it does not occur, nothing is parsed. -/
theorem C10_search_key_is_request_header (L : IcmpLib) (peer : Option String)
    (needSeq pid seq : Int) (c k : Nat) (data : List Nat) :
    (encodeEchoRequest pid seq).take 4 =
        [8, 0, byte (checksum ([8, 0, 0, 0] ++ Echo.Marshal pid seq (CorrelationPayload seq))),
          byte (checksum ([8, 0, 0, 0] ++ Echo.Marshal pid seq (CorrelationPayload seq)) / 256)] ∧
      (∀ i : Nat, bytesIndex data ((encodeEchoRequest pid seq).take 4) = i → 0 < i →
        (encodeEchoRequest pid seq).take 4 <+: data.drop i ∧
          (∀ j, j < i → ¬ (encodeEchoRequest pid seq).take 4 <+: data.drop j) ∧
          timeExceededBranch L peer needSeq (encodeEchoRequest pid seq)
              ⟨11, c, k, .timeExceeded data⟩ =
            match ParseMessage L (data.drop i) with
            | none => some .panic
            | some x2 =>
              match x2.Body with
              | .echo _ q _ =>
                if (q : Int) = needSeq then
                  match peer with
                  | some p => some (.ret p [] none)
                  | none => some .panic
                else none
              | _ => none) ∧
      (bytesIndex data ((encodeEchoRequest pid seq).take 4) = -1 →
        timeExceededBranch L peer needSeq (encodeEchoRequest pid seq)
          ⟨11, c, k, .timeExceeded data⟩ = none) := by
  have hl4 : 4 ≤ (encodeEchoRequest pid seq).length := by
    rw [encodeEchoRequest_length]
    omega
  refine ⟨take4_encodeEchoRequest pid seq, ?_, ?_⟩
  · intro i hi hpos
    refine ⟨?_, ?_, ?_⟩
    · have := bytesIndex_found data ((encodeEchoRequest pid seq).take 4) (by omega)
      rw [hi] at this
      simpa using this
    · intro j hj
      exact bytesIndex_first data _ j (by omega)
    · rw [timeExceededBranch_eq L peer needSeq _ c k data hl4, hi, if_pos (by omega)]
      rfl
  · intro hm
    rw [timeExceededBranch_eq L peer needSeq _ c k data hl4, hm, if_neg (by omega)]

/-- C10 (as amended) at the request for pid 100, sequence 7 behind an IP header. -/
theorem C10_search_key_is_request_header_witness :
    bytesIndex (ipHeader ++ encodeEchoRequest 100 7) ((encodeEchoRequest 100 7).take 4) = 20 ∧
      (encodeEchoRequest 100 7).take 4 <+: (ipHeader ++ encodeEchoRequest 100 7).drop 20 :=
  ⟨by decide,
   ((C10_search_key_is_request_header noExtensions (some "10.0.0.1") 7 100 7 0 0
      (ipHeader ++ encodeEchoRequest 100 7)).2.1 20 (by decide) (by decide)).1⟩

/-- C10 fails as stated for pid 100, sequence 7: the key is `[8, 0, 120, 148]`
and the payload starts `[7, 0, 0, 0]`; in a message that quotes the IP header
and the request, the key is found at offset 20 and the message matches,
while the start of the payload is at offset 28; a message that quotes only
the payload after the IP header is discarded. -/
theorem C10_key_is_not_payload :
    (encodeEchoRequest 100 7).take 4 = [8, 0, 120, 148] ∧
      (CorrelationPayload 7).take 4 = [7, 0, 0, 0] ∧
      bytesIndex (ipHeader ++ encodeEchoRequest 100 7) ((encodeEchoRequest 100 7).take 4) = 20 ∧
      bytesIndex (ipHeader ++ encodeEchoRequest 100 7) ((CorrelationPayload 7).take 4) = 28 ∧
      (∀ L : IcmpLib,
        listenStep L "" (CorrelationPayload 7) 7 (encodeEchoRequest 100 7)
          ⟨41, some "10.0.0.1", none,
            timeExceededPacket (ipHeader ++ encodeEchoRequest 100 7), 5⟩ =
          .ret "10.0.0.1" [] none) ∧
      (∀ L : IcmpLib,
        listenStep L "" (CorrelationPayload 7) 7 (encodeEchoRequest 100 7)
          ⟨33, some "10.0.0.1", none,
            timeExceededPacket (ipHeader ++ CorrelationPayload 7), 5⟩ = .next .endOfBody) := by
  refine ⟨by decide, by decide, by decide, by decide, fun L => ?_, fun L => ?_⟩
  · rw [listenStep_timeExceededPacket_lib L noExtensions "" "10.0.0.1" _ _ _ _ _ _
      (Or.inl rfl) (by decide) (by decide) (by decide) (by decide)]
    decide
  · rw [listenStep_timeExceededPacket_lib L noExtensions "" "10.0.0.1" _ _ _ _ _ _
      (Or.inl rfl) (by decide) (by decide) (by decide) (by decide)]
    decide

end Gmtr
